import Mathlib

/-!
Verification of the remote-control input subsystem of Me-TV
(`src/remote_control.rs`), shallowly embedded in Lean 4.

Paths are modelled as lists of components (`Path`); the filesystem and
kernel surfaces (glob results, symlink targets, file existence, open and
exclusive-grab outcomes) are explicit parameters.  Rust panics
(assertion failures, `unwrap` on `None`/`Err`) are modelled by `Option`
results, `none` standing for a hard failure.
-/

namespace MeTV

/-- A filesystem path, as its list of components (Rust `PathBuf::components`). -/
abbrev Path := List String

/-- `PathBuf::file_name`: the final component, `none` for an empty path. -/
def fileName (p : Path) : Option String := p.getLast?

/-- `PathBuf::pop`: drop the final component (the parent directory). -/
def parentOf (p : Path) : Path := p.dropLast

/-- Modelled from the spec: a tuner identity `{adapter, frontend}` with
field-wise equality (`FrontendId` lives in `frontend_manager.rs`, which is
not among the sources; the fields are parsed as `u8` in
`extract_frontend_from_paths`). -/
structure FrontendId where
  adapter : Nat
  frontend : Nat
  deriving DecidableEq, Repr

/-! ## Path Resolver: `get_sys_path_from_lirc_path` -/

/-- `get_sys_path_from_lirc_path`, with the glob result
(`/sys/class/rc/rc*/lirc*`) passed explicitly: keep the nodes whose final
component equals the lirc path's final component; succeed with the unique
match's parent directory, fail otherwise. -/
def get_sys_path_from_lirc_path (globResults : List Path) (lirc_path : Path) :
    Except String Path :=
  match globResults.filter (fun pb => fileName pb == fileName lirc_path) with
  | [p] => .ok (parentOf p)
  | _ => .error "Failed to correctly process path"

/-! ## Path Resolver: `create_event_path_from_sys_path` -/

/-- `get_rc_event_file_final_component`: `-event-ir` when a file of that
name exists (existence supplied by `ex`), else `-event`. -/
def get_rc_event_file_final_component (ex : String → Bool) (base : String) : String :=
  if ex (base ++ "-event-ir") then "-event-ir" else "-event"

/-- Rust `str::split("-")` over a character list: the (possibly empty)
fields between hyphens, in order. -/
def splitHyphens : List Char → List (List Char)
  | [] => [[]]
  | c :: cs =>
    if c = '-' then [] :: splitHyphens cs
    else
      match splitHyphens cs with
      | [] => [[c]]
      | h :: t => (c :: h) :: t

/-- `create_event_path_from_sys_path`.  The Rust function indexes
`components[0]`, `[1]`, `[len-2]`, `[4]`, `[len-3]` and
`split("-")[1]`, asserting the first three values; a failed assertion or
out-of-range index is a panic, modelled as `none`. -/
def create_event_path_from_sys_path (ex : String → Bool) (components : List String) :
    Option String :=
  match components.get? 0, components.get? 1,
      components.get? (components.length - 2),
      components.get? 4, components.get? (components.length - 3) with
  | some c0, some c1, some c2, some pci, some bus =>
    if c0 = ".." ∧ c1 = ".." ∧ c2 = "rc" then
      match (splitHyphens bus.toList).get? 1 with
      | some seg =>
        let base := "/dev/input/by-path/pci-" ++ pci ++ "-usb-0:" ++ String.mk seg
        some (base ++ get_rc_event_file_final_component ex base)
      | none => none
    else none
  | _, _, _, _, _ => none

/-- Everything after the first hyphen of `s`, when `s` contains one.
Stated from the specification's words ("the suffix of the third-from-last
component after its first hyphen"), for comparison with the code's
`split("-")[1]`. -/
def suffixAfterFirstHyphen : List Char → Option (List Char)
  | [] => none
  | c :: cs => if c = '-' then some cs else suffixAfterFirstHyphen cs

/-- The event-path formula exactly as the specification states it: like
`create_event_path_from_sys_path` but taking the whole suffix of the bus
component after its first hyphen. -/
def spec_event_path_from_sys_path (ex : String → Bool) (components : List String) :
    Option String :=
  match components.get? 0, components.get? 1,
      components.get? (components.length - 2),
      components.get? 4, components.get? (components.length - 3) with
  | some c0, some c1, some c2, some pci, some bus =>
    if c0 = ".." ∧ c1 = ".." ∧ c2 = "rc" then
      match suffixAfterFirstHyphen bus.toList with
      | some seg =>
        let base := "/dev/input/by-path/pci-" ++ pci ++ "-usb-0:" ++ String.mk seg
        some (base ++ get_rc_event_file_final_component ex base)
      | none => none
    else none
  | _, _, _, _, _ => none

/-- Is `s` of the form `rcN` (the literal `rc` followed by at least one
digit)?  Used to state what the claim says about the last component. -/
def is_rcN (s : String) : Bool :=
  match s.toList with
  | 'r' :: 'c' :: rest => !rest.isEmpty && rest.all Char.isDigit
  | _ => false

/-! ## Path Resolver: `extract_frontend_from_paths`

The regex `dvb([0-9]+)\.frontend([0-9]+)` is matched unanchored against
the file name, leftmost match first; both capture groups are maximal
digit runs (no backtracking is possible since a digit is never `.` and
the second group ends the pattern).  `parse::<u8>()` fails above 255. -/

/-- Maximal digit prefix of a character list, with the rest. -/
def takeDigits : List Char → List Char × List Char
  | [] => ([], [])
  | c :: cs =>
    if c.isDigit then
      let (d, r) := takeDigits cs
      (c :: d, r)
    else ([], c :: cs)

/-- Strip the literal `lit` from the front of `s`, or fail. -/
def stripLit : List Char → List Char → Option (List Char)
  | [], s => some s
  | _ :: _, [] => none
  | l :: ls, c :: cs => if l = c then stripLit ls cs else none

/-- Match `dvb([0-9]+)\.frontend([0-9]+)` at the start of `s`, returning
the two captured digit runs. -/
def matchDvbHere (s : List Char) : Option (List Char × List Char) := do
  let s1 ← stripLit "dvb".toList s
  let (a, s2) := takeDigits s1
  guard (a ≠ [])
  let s3 ← stripLit ".".toList s2
  let s4 ← stripLit "frontend".toList s3
  let (f, _) := takeDigits s4
  guard (f ≠ [])
  pure (a, f)

/-- Leftmost match of the pattern anywhere in `s` (Rust `Regex::captures`). -/
def findDvbCaptures : List Char → Option (List Char × List Char)
  | [] => none
  | c :: cs =>
    match matchDvbHere (c :: cs) with
    | some r => some r
    | none => findDvbCaptures cs

/-- Numeric value of a digit run. -/
def digitsToNat (ds : List Char) : Nat :=
  ds.foldl (fun n c => n * 10 + (c.toNat - 48)) 0

/-- Rust `str::parse::<u8>()` on an all-digit, non-empty string: the
value when it fits in 8 bits, failure (panic under `unwrap`) otherwise. -/
def parseU8 (ds : List Char) : Option Nat :=
  let n := digitsToNat ds
  if n ≤ 255 then some n else none

/-- The per-path body of `extract_frontend_from_paths`: take the file
name, find the regex captures, parse both as `u8`; any `unwrap` failure
is a panic (`none`). -/
def extractOneFrontend (p : Path) : Option FrontendId := do
  let name ← fileName p
  let (a, f) ← findDvbCaptures name.toList
  let adapter ← parseU8 a
  let frontend ← parseU8 f
  pure ⟨adapter, frontend⟩

/-- `extract_frontend_from_paths`: map `extractOneFrontend` over the
paths in order; a panic anywhere aborts (Rust unwinds). -/
def extract_frontend_from_paths (paths : List Path) : Option (List FrontendId) :=
  paths.mapM extractOneFrontend

/-- The captures of a path's file name with their numeric values, before
the `u8` range check.  Used to state the claims about extraction. -/
def dvbCapturesOf (p : Path) : Option (Nat × Nat) := do
  let name ← fileName p
  let (a, f) ← findDvbCaptures name.toList
  pure (digitsToNat a, digitsToNat f)

/-! ## Event Poller: `process_events_for_device`

A read into the 64-slot `input_event` buffer is modelled by the buffer
contents plus the `read(2)` return value `rc : Int`.  `input_event` on
x86-64 is 24 bytes (a 16-byte `timeval`, two `u16`, one `i32`); only the
`type_`, `code` and `value` fields are ever inspected. -/

/-- `std::mem::size_of::<libc::input_event>()` on x86-64. -/
def item_size : Nat := 24

/-- Modelled from the spec: the kernel key-event type code
(`input_event_codes::EV_KEY` is generated from kernel headers and is not
among the sources; Linux defines `EV_KEY = 0x01`). -/
def EV_KEY : Nat := 1

/-- One kernel `input_event` record; the timestamp is never inspected.
`type_` and `code` are `u16`, `value` is an `i32`. -/
structure InputEvent where
  type_ : Nat
  code : Nat
  value : Int
  deriving DecidableEq, Repr, Inhabited

/-- One decoded keystroke destined for the GUI. -/
structure TargettedKeystroke where
  frontend_id : FrontendId
  keystroke : Nat
  value : Nat
  deriving DecidableEq, Repr

/-- Rust `as u32` on an `i32`: two's-complement reinterpretation. -/
def u32_of_i32 (v : Int) : Nat := (v % (2 : Int) ^ 32).toNat

/-- The `TargettedKeystroke` built for a key-event record. -/
def toKeystroke (fid : FrontendId) (e : InputEvent) : TargettedKeystroke :=
  ⟨fid, e.code, u32_of_i32 e.value⟩

/-- The `for i in 0..event_count` loop body of
`process_events_for_device`: records whose `type_` is `EV_KEY` are sent
(in order), tagged with `frontend_ids[0]`; indexing `frontend_ids[0]`
of an empty vector is a panic (`none`). -/
def collectKeystrokes (frontend_ids : List FrontendId) :
    List InputEvent → Option (List TargettedKeystroke)
  | [] => some []
  | e :: rest =>
    if e.type_ = EV_KEY then
      match frontend_ids.head? with
      | none => none
      | some fid => (collectKeystrokes frontend_ids rest).map (toKeystroke fid e :: ·)
    else collectKeystrokes frontend_ids rest

/-- `process_events_for_device`, as a function of the device's
`frontend_ids`, the buffer contents and the `read` return value.  A
non-positive `rc` falls through the `if rc > 0` guard (nothing is sent);
a positive `rc` that is not an exact multiple of `item_size` fails the
`assert_eq!`; the loop then consumes the first `rc / item_size` records
(indexing past the buffer would panic). -/
def process_events_for_device (frontend_ids : List FrontendId)
    (buffer : List InputEvent) (rc : Int) : Option (List TargettedKeystroke) :=
  if 0 < rc then
    let n := rc.toNat
    let event_count := n / item_size
    if item_size * event_count = n then
      if event_count ≤ buffer.length then
        collectKeystrokes frontend_ids (buffer.take event_count)
      else none
    else none
  else some []

/-! ## Device Registry

The registry (`REMOTES`) is a list of handles mutated by the initial
scan, hotplug add and hotplug remove.  `RemoteControl::new` is embedded
against an explicit, fixed environment describing the filesystem, and
the kernel's `EVIOCGRAB` exclusivity: the grab step fails while another
live handle already holds the grab on the same event device.  (The ioctl
is an external kernel interface; its exclusive-acquisition semantics is
modelled from the spec, sections 3 and 6.)  Since a handle's drop
releases its grab, the set of grabbed devices is exactly the
`device_event_path`s of the handles currently in the registry. -/

/-- The registry's view of one `RemoteControl`. -/
structure Handle where
  frontend_ids : List FrontendId
  lirc_path : Path
  sys_rc_path : Path
  device_event_path : String
  deriving DecidableEq, Repr

/-- The fixed filesystem/kernel environment a run of registry operations
executes against: glob results, symlink targets, file existence, and
open/grab admissibility (grab admissibility covers grabs held outside
this process; grabs held by registry handles are threaded explicitly). -/
structure Env where
  rcGlobResults : List Path
  dvbGlobResults : Path → List Path
  readLink : Path → Option Path
  fileExists : String → Bool
  openOk : String → Bool
  grabOk : String → Bool

/-- `RemoteControl::new` against environment `env`, where `grabbed` is
the set of event devices currently grabbed by live handles of this
process.  Mirrors the source order: sysfs resolution, frontend
enumeration, symlink read and event-path derivation, open, exclusive
grab.  Any failure yields `none` (the Rust `Err`, or a panic inside the
helpers). -/
def RemoteControl.new (env : Env) (grabbed : List String) (lirc_path : Path) :
    Option Handle :=
  match (get_sys_path_from_lirc_path env.rcGlobResults lirc_path).toOption with
  | none => none
  | some sys_rc_path =>
    match extract_frontend_from_paths (env.dvbGlobResults sys_rc_path) with
    | none => none
    | some frontend_ids =>
      match env.readLink sys_rc_path with
      | none => none
      | some target =>
        match create_event_path_from_sys_path env.fileExists target with
        | none => none
        | some device_event_path =>
          if env.openOk device_event_path ∧ env.grabOk device_event_path ∧
              device_event_path ∉ grabbed then
            some ⟨frontend_ids, lirc_path, sys_rc_path, device_event_path⟩
          else none

/-- The event device `RemoteControl::new` would derive for a lirc path
(independent of the grab state): the composition of sysfs resolution,
symlink read and event-path construction. -/
def devOf (env : Env) (lirc_path : Path) : Option String :=
  match (get_sys_path_from_lirc_path env.rcGlobResults lirc_path).toOption with
  | none => none
  | some sys_rc_path =>
    match extract_frontend_from_paths (env.dvbGlobResults sys_rc_path) with
    | none => none
    | some _ =>
      match env.readLink sys_rc_path with
      | none => none
      | some target => create_event_path_from_sys_path env.fileExists target

/-- The devices grabbed by the handles of a registry state. -/
def grabbedOf (s : List Handle) : List String := s.map (·.device_event_path)

/-- One attempted addition: both the per-element body of the initial
scan (`add_already_installed_remotes` filters on resolvability, then
constructs and pushes on success) and `add_appeared_remote_control`
(which guards on resolvability, then constructs and pushes on success).
A construction failure only logs: the registry is unchanged. -/
def addStep (env : Env) (s : List Handle) (lirc_path : Path) : List Handle :=
  if (get_sys_path_from_lirc_path env.rcGlobResults lirc_path).toOption.isSome then
    match RemoteControl.new env (grabbedOf s) lirc_path with
    | some h => s ++ [h]
    | none => s
  else s

/-- `remove_disappeared_remote_control`: `retain` keeps, in order,
exactly the handles whose `lirc_path` differs. -/
def removeRemote (s : List Handle) (lirc_path : Path) : List Handle :=
  s.filter (fun d => d.lirc_path != lirc_path)

/-- A registry operation: the initial scan over the `/dev/lirc*` glob
results, a hotplug add, or a hotplug remove. -/
inductive RegOp where
  | scan (lirc_devices : List Path)
  | add (lirc_path : Path)
  | remove (lirc_path : Path)
  deriving Repr

/-- Apply one registry operation. -/
def applyOp (env : Env) (s : List Handle) : RegOp → List Handle
  | .scan lirc_devices => lirc_devices.foldl (addStep env) s
  | .add lirc_path => addStep env s lirc_path
  | .remove lirc_path => removeRemote s lirc_path

/-- Run a sequence of registry operations from the empty registry. -/
def runOps (env : Env) (ops : List RegOp) : List Handle :=
  ops.foldl (applyOp env) []

/-- The registry invariant maintained by every operation: the live
handles hold pairwise-distinct grabs, and each handle's event device is
exactly the one the environment derives from its lirc path. -/
def RegInv (env : Env) (s : List Handle) : Prop :=
  (grabbedOf s).Nodup ∧
    ∀ h ∈ s, devOf env h.lirc_path = some h.device_event_path

/-! ## Theorems -/

/-- C4: for every lirc path and every glob result set,
`get_sys_path_from_lirc_path` returns `Ok` with the parent directory of
the unique node whose final component equals the lirc path's final
component when exactly one such node exists, and `Err` when the number
of matching nodes is not one. -/
theorem C4_sys_path_unique_match (globResults : List Path) (lirc_path : Path) :
    (∀ p, globResults.filter (fun pb => fileName pb == fileName lirc_path) = [p] →
      get_sys_path_from_lirc_path globResults lirc_path = .ok (parentOf p) ∧
      fileName p = fileName lirc_path ∧ p ∈ globResults) ∧
    ((globResults.filter (fun pb => fileName pb == fileName lirc_path)).length ≠ 1 →
      ∃ e, get_sys_path_from_lirc_path globResults lirc_path = .error e) := by
  constructor
  · intro p hp
    refine ⟨?_, ?_, ?_⟩
    · simp only [get_sys_path_from_lirc_path, hp]
    · have hmem : p ∈ globResults.filter (fun pb => fileName pb == fileName lirc_path) := by
        rw [hp]; exact List.mem_singleton_self p
      have := (List.mem_filter.mp hmem).2
      exact eq_of_beq this
    · have hmem : p ∈ globResults.filter (fun pb => fileName pb == fileName lirc_path) := by
        rw [hp]; exact List.mem_singleton_self p
      exact (List.mem_filter.mp hmem).1
  · intro hlen
    refine ⟨"Failed to correctly process path", ?_⟩
    unfold get_sys_path_from_lirc_path
    cases hf : globResults.filter (fun pb => fileName pb == fileName lirc_path) with
    | nil => rfl
    | cons a t =>
      cases t with
      | nil => rw [hf] at hlen; simp at hlen
      | cons b u => rfl

/-- Witness for C4 at a concrete one-match and a concrete zero-match input. -/
theorem C4_sys_path_unique_match_witness :
    get_sys_path_from_lirc_path [["sys", "class", "rc", "rc0", "lirc0"]] ["dev", "lirc0"] =
      .ok ["sys", "class", "rc", "rc0"] ∧
    ∃ e, get_sys_path_from_lirc_path [] ["dev", "lirc0"] = .error e :=
  ⟨((C4_sys_path_unique_match [["sys", "class", "rc", "rc0", "lirc0"]] ["dev", "lirc0"]).1
      ["sys", "class", "rc", "rc0", "lirc0"] (by decide)).1,
   (C4_sys_path_unique_match [] ["dev", "lirc0"]).2 (by decide)⟩

/-- C9: `remove_disappeared_remote_control p` removes precisely the
handles whose `lirc_path` equals `p` — the result is an in-order
sublist of the registry containing exactly the handles with a different
`lirc_path` — and it is the identity when no handle matches. -/
theorem C9_remove_frame (s : List Handle) (p : Path) :
    (removeRemote s p).Sublist s ∧
    (∀ h, h ∈ removeRemote s p ↔ h ∈ s ∧ h.lirc_path ≠ p) ∧
    ((∀ h ∈ s, h.lirc_path ≠ p) → removeRemote s p = s) := by
  refine ⟨List.filter_sublist s, ?_, ?_⟩
  · intro h
    simp [removeRemote, List.mem_filter]
  · intro hnone
    simp only [removeRemote]
    rw [List.filter_eq_self]
    intro a ha
    simpa using hnone a ha

/-- Witness for C9: removing an absent path is the identity on a
concrete registry. -/
theorem C9_remove_frame_witness :
    removeRemote [⟨[], ["dev", "lirc1"], [], "d1"⟩] ["dev", "lirc0"] =
      [⟨[], ["dev", "lirc1"], [], "d1"⟩] :=
  (C9_remove_frame [⟨[], ["dev", "lirc1"], [], "d1"⟩] ["dev", "lirc0"]).2.2 (by decide)

/-- With a non-empty `frontend_ids`, the event loop sends exactly the
key-event records, in order, tagged with the first frontend id. -/
lemma collectKeystrokes_cons_head (fid : FrontendId) (fids : List FrontendId) :
    ∀ xs : List InputEvent,
      collectKeystrokes (fid :: fids) xs =
        some ((xs.filter (fun e => e.type_ == EV_KEY)).map (toKeystroke fid))
  | [] => rfl
  | e :: rest => by
    by_cases he : e.type_ = EV_KEY
    · simp [collectKeystrokes, he, List.filter_cons,
        collectKeystrokes_cons_head fid fids rest]
    · simp [collectKeystrokes, he, List.filter_cons,
        collectKeystrokes_cons_head fid fids rest]

/-- With an empty `frontend_ids`, reaching any key-event record panics
(`frontend_ids[0]` is out of bounds). -/
lemma collectKeystrokes_nil_of_key :
    ∀ xs : List InputEvent, (∃ e ∈ xs, e.type_ = EV_KEY) →
      collectKeystrokes [] xs = none
  | [], h => absurd h (by simp)
  | e :: rest, h => by
    by_cases he : e.type_ = EV_KEY
    · simp [collectKeystrokes, he]
    · have : ∃ x ∈ rest, x.type_ = EV_KEY := by
        rcases h with ⟨x, hx, hxk⟩
        rcases List.mem_cons.mp hx with rfl | hx
        · exact absurd hxk he
        · exact ⟨x, hx, hxk⟩
      simp [collectKeystrokes, he, collectKeystrokes_nil_of_key rest this]

/-- C2: for a device with a first frontend id, a reported-ready
descriptor and a successful read of `rc > 0` bytes (bounded by the 64
requested records): a count that is not an exact multiple of the record
size is a hard failure; otherwise exactly `rc / item_size ≤ 64` records
are consumed, every key-event record among them is forwarded exactly
once — the output is the in-order image of the key-event records under
`toKeystroke` with the device's first frontend id — and records of any
other type are never forwarded. -/
theorem C2_poller_decode (fid : FrontendId) (fids : List FrontendId)
    (buffer : List InputEvent) (rc : Int)
    (hbuf : buffer.length = 64) (hpos : 0 < rc) (hread : rc.toNat ≤ item_size * 64) :
    (¬ item_size ∣ rc.toNat →
      process_events_for_device (fid :: fids) buffer rc = none) ∧
    (∀ k, rc.toNat = item_size * k →
      k ≤ 64 ∧
      process_events_for_device (fid :: fids) buffer rc =
        some (((buffer.take k).filter (fun e => e.type_ == EV_KEY)).map
          (toKeystroke fid))) := by
  constructor
  · intro hndvd
    have hne : item_size * (rc.toNat / item_size) ≠ rc.toNat := by
      intro heq
      exact hndvd ⟨rc.toNat / item_size, heq.symm⟩
    simp [process_events_for_device, hpos, hne]
  · intro k hk
    have hk64 : k ≤ 64 := by
      have := hk ▸ hread
      exact Nat.le_of_mul_le_mul_left this (by norm_num [item_size])
    have hcount : rc.toNat / item_size = k := by
      rw [hk, Nat.mul_div_cancel_left _ (by norm_num [item_size])]
    refine ⟨hk64, ?_⟩
    have hle : k ≤ buffer.length := by rw [hbuf]; exact hk64
    simp [process_events_for_device, hpos, hcount, ← hk, hle,
      collectKeystrokes_cons_head]

/-- Witness for C2 at a concrete two-record read: one key record and one
non-key record, only the former forwarded. -/
theorem C2_poller_decode_witness :
    2 ≤ 64 ∧
    process_events_for_device [⟨3, 4⟩]
      ([⟨EV_KEY, 10, 20⟩, ⟨0, 11, 21⟩] ++ List.replicate 62 ⟨0, 0, 0⟩) 48 =
      some [⟨⟨3, 4⟩, 10, 20⟩] := by
  have h := (C2_poller_decode ⟨3, 4⟩ []
    ([⟨EV_KEY, 10, 20⟩, ⟨0, 11, 21⟩] ++ List.replicate 62 ⟨0, 0, 0⟩) 48
    (by decide) (by decide) (by decide)).2 2 (by decide)
  refine ⟨h.1, ?_⟩
  rw [h.2]
  decide

/-- C3 counterexample: a negative `read` return on a reported-ready
descriptor is silently ignored — even with key events in the buffer the
function neither fails nor forwards anything, contradicting the claimed
fatal assertion. -/
theorem C3_negative_read_counterexample :
    process_events_for_device [⟨0, 0⟩] (List.replicate 64 ⟨EV_KEY, 2, 3⟩) (-1) =
      some [] := rfl

/-- C3 amended: a read returning a non-positive value is silently
ignored (nothing is forwarded, nothing fails); the only read-related
fatal assertion is the exact-multiple check, which fires on a positive
count that is not a multiple of the record size. -/
theorem C3_negative_read_amended :
    (∀ (fids : List FrontendId) (buffer : List InputEvent) (rc : Int), rc ≤ 0 →
      process_events_for_device fids buffer rc = some []) ∧
    (∀ (fids : List FrontendId) (buffer : List InputEvent) (rc : Int),
      0 < rc → ¬ item_size ∣ rc.toNat →
      process_events_for_device fids buffer rc = none) := by
  constructor
  · intro fids buffer rc hrc
    have : ¬ (0 < rc) := by omega
    simp [process_events_for_device, this]
  · intro fids buffer rc hpos hndvd
    have hne : item_size * (rc.toNat / item_size) ≠ rc.toNat := by
      intro heq
      exact hndvd ⟨rc.toNat / item_size, heq.symm⟩
    simp [process_events_for_device, hpos, hne]

/-- Witness for C3 (amended) at a zero return and at a 25-byte return. -/
theorem C3_negative_read_amended_witness :
    process_events_for_device [] [] 0 = some [] ∧
    process_events_for_device [] (List.replicate 64 ⟨0, 0, 0⟩) 25 = none :=
  ⟨C3_negative_read_amended.1 [] [] 0 (by decide),
   C3_negative_read_amended.2 [] (List.replicate 64 ⟨0, 0, 0⟩) 25 (by decide) (by decide)⟩

/-- C10: `RemoteControl::new` permits an empty frontend enumeration
(the extraction of an empty path list succeeds with the empty list), and
for a device whose `frontend_ids` is empty, `process_events_for_device`
fails (out-of-bounds `frontend_ids[0]`) as soon as a key-event record is
among the consumed records. -/
theorem C10_empty_frontends_panic :
    extract_frontend_from_paths [] = some [] ∧
    (∀ (buffer : List InputEvent) (rc : Int) (k : Nat),
      0 < rc → rc.toNat = item_size * k → k ≤ buffer.length →
      (∃ e ∈ buffer.take k, e.type_ = EV_KEY) →
      process_events_for_device [] buffer rc = none) := by
  refine ⟨rfl, ?_⟩
  intro buffer rc k hpos hk hkle hkey
  have hcount : rc.toNat / item_size = k := by
    rw [hk, Nat.mul_div_cancel_left _ (by norm_num [item_size])]
  simp [process_events_for_device, hpos, hcount, ← hk, hkle,
    collectKeystrokes_nil_of_key _ hkey]

/-- Witness for C10: a single key-event record read for a device with no
frontends is a hard failure. -/
theorem C10_empty_frontends_panic_witness :
    process_events_for_device [] [⟨EV_KEY, 2, 3⟩] 24 = none :=
  C10_empty_frontends_panic.2 [⟨EV_KEY, 2, 3⟩] 24 1 (by decide) (by decide) (by decide)
    (by decide)

/-- A path whose file name yields captures that fit in `u8` is extracted
to exactly those numbers. -/
lemma extractOneFrontend_of_captures (p : Path) (a f : Nat)
    (hc : dvbCapturesOf p = some (a, f)) (ha : a ≤ 255) (hf : f ≤ 255) :
    extractOneFrontend p = some ⟨a, f⟩ := by
  unfold dvbCapturesOf at hc
  unfold extractOneFrontend
  cases hname : fileName p with
  | none => rw [hname] at hc; simp at hc
  | some name =>
    rw [hname] at hc
    simp only [Option.pure_def, Option.bind_eq_bind, Option.some_bind] at hc ⊢
    cases hcap : findDvbCaptures name.toList with
    | none => rw [hcap] at hc; simp at hc
    | some af =>
      obtain ⟨ca, cf⟩ := af
      rw [hcap] at hc
      simp only [Option.some_bind, Option.some.injEq, Prod.mk.injEq] at hc
      obtain ⟨hca, hcf⟩ := hc
      simp [parseU8, hca, hcf, ha, hf]

/-- C7 counterexample: the file name `dvb300.frontend0` matches the
pattern, but `parse::<u8>()` fails on 300, so extraction panics instead
of producing the matched numbers. -/
theorem C7_extract_counterexample :
    dvbCapturesOf ["dvb300.frontend0"] = some (300, 0) ∧
    extract_frontend_from_paths [["dvb300.frontend0"]] = none := by
  constructor <;> rfl

/-- C7 amended: extraction from the empty list yields the empty
sequence; the two-path example yields `[{0,0}, {1,0}]` in input order;
and for every list of paths whose file names match the pattern with
adapter and frontend numbers at most 255, extraction succeeds with one
`FrontendId` per path, the `i`-th holding the numbers captured from the
`i`-th path. -/
theorem C7_extract_order_and_length :
    extract_frontend_from_paths [] = some [] ∧
    extract_frontend_from_paths
      [["sys", "class", "rc", "rc0", "device", "dvb", "dvb0.frontend0"],
       ["sys", "class", "rc", "rc0", "device", "dvb", "dvb1.frontend0"]] =
      some [⟨0, 0⟩, ⟨1, 0⟩] ∧
    (∀ paths : List Path,
      (∀ p ∈ paths, ∃ a f, dvbCapturesOf p = some (a, f) ∧ a ≤ 255 ∧ f ≤ 255) →
      ∃ l, extract_frontend_from_paths paths = some l ∧
        l.length = paths.length ∧
        List.Forall₂ (fun p fid =>
          dvbCapturesOf p = some (fid.adapter, fid.frontend)) paths l) := by
  refine ⟨rfl, by decide, ?_⟩
  intro paths
  induction paths with
  | nil => exact fun _ => ⟨[], rfl, rfl, List.Forall₂.nil⟩
  | cons p ps ih =>
    intro hall
    obtain ⟨a, f, hc, ha, hf⟩ := hall p (List.mem_cons_self p ps)
    obtain ⟨l, hl, hlen, hfa⟩ := ih (fun q hq => hall q (List.mem_cons_of_mem p hq))
    refine ⟨⟨a, f⟩ :: l, ?_, by simpa using hlen, ?_⟩
    · simp only [extract_frontend_from_paths] at hl ⊢
      rw [List.mapM_cons, extractOneFrontend_of_captures p a f hc ha hf, hl]
      rfl
    · exact List.Forall₂.cons hc hfa

/-- Anything `create_event_path_from_sys_path` accepts passed its three
assertions: the first two components are `..` and the second-to-last
component is `rc`. -/
lemma create_event_path_asserts (ex : String → Bool) (cs : List String) (r : String)
    (h : create_event_path_from_sys_path ex cs = some r) :
    cs.get? 0 = some ".." ∧ cs.get? 1 = some ".." ∧
      cs.get? (cs.length - 2) = some "rc" := by
  unfold create_event_path_from_sys_path at h
  split at h
  next c0 c1 c2 pci bus h0 h1 h2 h4 h3 =>
    split at h
    next hcond => exact ⟨hcond.1 ▸ h0, hcond.2.1 ▸ h1, hcond.2.2 ▸ h2⟩
    next => simp at h
  next => simp at h

/-- The happy path of `create_event_path_from_sys_path`, given the
values at every inspected position. -/
lemma create_event_path_eq (ex : String → Bool) (cs : List String)
    (pci bus : String) (seg : List Char)
    (h0 : cs.get? 0 = some "..") (h1 : cs.get? 1 = some "..")
    (h2 : cs.get? (cs.length - 2) = some "rc")
    (h4 : cs.get? 4 = some pci) (h3 : cs.get? (cs.length - 3) = some bus)
    (hseg : (splitHyphens bus.toList).get? 1 = some seg) :
    create_event_path_from_sys_path ex cs =
      some ("/dev/input/by-path/pci-" ++ pci ++ "-usb-0:" ++ String.mk seg ++
        get_rc_event_file_final_component ex
          ("/dev/input/by-path/pci-" ++ pci ++ "-usb-0:" ++ String.mk seg)) := by
  have hstep : create_event_path_from_sys_path ex cs =
      match (splitHyphens bus.toList).get? 1 with
      | some seg =>
        let base := "/dev/input/by-path/pci-" ++ pci ++ "-usb-0:" ++ String.mk seg
        some (base ++ get_rc_event_file_final_component ex base)
      | none => none := by
    unfold create_event_path_from_sys_path
    rw [h0, h1, h2, h4, h3]
    rfl
  rw [hstep, hseg]

/-- C5 counterexample: on a symlink target that passes every structural
assertion but whose bus component `2-1-3:1.0` contains two hyphens, the
code keeps only the field between the first and second hyphens (`1`),
while the claimed formula — the whole suffix after the first hyphen —
gives `1-3:1.0`; the two results differ. -/
theorem C5_event_path_counterexample :
    create_event_path_from_sys_path (fun _ => false)
      ["..", "..", "devices", "pci0000:00", "0000:00:14.0", "usb2", "2-1",
       "2-1-3:1.0", "rc", "rc0"] =
      some "/dev/input/by-path/pci-0000:00:14.0-usb-0:1-event" ∧
    spec_event_path_from_sys_path (fun _ => false)
      ["..", "..", "devices", "pci0000:00", "0000:00:14.0", "usb2", "2-1",
       "2-1-3:1.0", "rc", "rc0"] =
      some "/dev/input/by-path/pci-0000:00:14.0-usb-0:1-3:1.0-event" ∧
    ("/dev/input/by-path/pci-0000:00:14.0-usb-0:1-event" : String) ≠
      "/dev/input/by-path/pci-0000:00:14.0-usb-0:1-3:1.0-event" :=
  ⟨rfl, rfl, by decide⟩

/-- C5 amended: the function deterministically returns
`/dev/input/by-path/pci-` + (the component 4 positions from the start) +
`-usb-0:` + (the field of the third-from-last component between its
first and second hyphens, i.e. `split("-")[1]`, which is the suffix
after the first hyphen whenever that component has exactly one hyphen) +
`-event-ir` when a file of that name exists and `-event` otherwise; in
particular it maps the literal lavaine symlink target to
`/dev/input/by-path/pci-0000:00:14.0-usb-0:1:1.0` plus that suffix. -/
theorem C5_event_path_formula :
    (∀ (ex : String → Bool) (cs : List String) (pci bus : String) (seg : List Char),
      cs.get? 0 = some ".." → cs.get? 1 = some ".." →
      cs.get? (cs.length - 2) = some "rc" →
      cs.get? 4 = some pci → cs.get? (cs.length - 3) = some bus →
      (splitHyphens bus.toList).get? 1 = some seg →
      create_event_path_from_sys_path ex cs =
        some ("/dev/input/by-path/pci-" ++ pci ++ "-usb-0:" ++ String.mk seg ++
          get_rc_event_file_final_component ex
            ("/dev/input/by-path/pci-" ++ pci ++ "-usb-0:" ++ String.mk seg))) ∧
    (∀ ex : String → Bool,
      create_event_path_from_sys_path ex
        ["..", "..", "devices", "pci0000:00", "0000:00:14.0", "usb2", "2-1",
         "2-1:1.0", "rc", "rc0"] =
        some ("/dev/input/by-path/pci-0000:00:14.0-usb-0:1:1.0" ++
          get_rc_event_file_final_component ex
            "/dev/input/by-path/pci-0000:00:14.0-usb-0:1:1.0")) := by
  refine ⟨fun ex cs pci bus seg h0 h1 h2 h4 h3 hseg =>
    create_event_path_eq ex cs pci bus seg h0 h1 h2 h4 h3 hseg, fun ex => ?_⟩
  have h := create_event_path_eq ex
    ["..", "..", "devices", "pci0000:00", "0000:00:14.0", "usb2", "2-1",
     "2-1:1.0", "rc", "rc0"] "0000:00:14.0" "2-1:1.0" "1:1.0".toList
    rfl rfl rfl rfl rfl rfl
  simpa using h

/-- Witness for C5 at the lavaine symlink target with no
`-event-ir` file present. -/
theorem C5_event_path_formula_witness :
    create_event_path_from_sys_path (fun _ => false)
      ["..", "..", "devices", "pci0000:00", "0000:00:14.0", "usb2", "2-1",
       "2-1:1.0", "rc", "rc0"] =
      some "/dev/input/by-path/pci-0000:00:14.0-usb-0:1:1.0-event" := by
  have h := C5_event_path_formula.1 (fun _ => false)
    ["..", "..", "devices", "pci0000:00", "0000:00:14.0", "usb2", "2-1",
     "2-1:1.0", "rc", "rc0"] "0000:00:14.0" "2-1:1.0" "1:1.0".toList
    rfl rfl rfl rfl rfl rfl
  simpa using h

/-- C6 counterexample: an input whose last component is `banana` (not of
the form `rcN`) still satisfies every assertion the code performs, so
the function succeeds instead of failing. -/
theorem C6_last_component_counterexample :
    is_rcN "banana" = false ∧
    create_event_path_from_sys_path (fun _ => false)
      ["..", "..", "devices", "pci0000:00", "0000:00:14.0", "usb2", "2-1",
       "2-1:1.0", "rc", "banana"] =
      some "/dev/input/by-path/pci-0000:00:14.0-usb-0:1:1.0-event" :=
  ⟨rfl, rfl⟩

/-- C6 amended: the function fails by assertion on every input whose
first component is not `..`, or whose second component is not `..`, or
whose second-to-last component is not `rc`; the form of the last
component is not checked. -/
theorem C6_assertion_coverage :
    (∀ (ex : String → Bool) (cs : List String), cs.get? 0 ≠ some ".." →
      create_event_path_from_sys_path ex cs = none) ∧
    (∀ (ex : String → Bool) (cs : List String), cs.get? 1 ≠ some ".." →
      create_event_path_from_sys_path ex cs = none) ∧
    (∀ (ex : String → Bool) (cs : List String),
      cs.get? (cs.length - 2) ≠ some "rc" →
      create_event_path_from_sys_path ex cs = none) := by
  refine ⟨?_, ?_, ?_⟩ <;> intro ex cs hne <;>
    cases hr : create_event_path_from_sys_path ex cs with
    | none => rfl
    | some r => ?_
  · exact absurd (create_event_path_asserts ex cs r hr).1 hne
  · exact absurd (create_event_path_asserts ex cs r hr).2.1 hne
  · exact absurd (create_event_path_asserts ex cs r hr).2.2 hne

/-- Witness for C6 (amended) at concrete inputs violating each assertion. -/
theorem C6_assertion_coverage_witness :
    create_event_path_from_sys_path (fun _ => false) ["x", "..", "rc", "rc0"] = none ∧
    create_event_path_from_sys_path (fun _ => false) ["..", "x", "rc", "rc0"] = none ∧
    create_event_path_from_sys_path (fun _ => false) ["..", "..", "x", "rc0"] = none :=
  ⟨C6_assertion_coverage.1 _ _ (by decide),
   C6_assertion_coverage.2.1 _ _ (by decide),
   C6_assertion_coverage.2.2 _ _ (by decide)⟩

/-- Witness for C7 at a concrete two-path list. -/
theorem C7_extract_order_and_length_witness :
    ∃ l, extract_frontend_from_paths [["dvb2.frontend1"], ["dvb3.frontend0"]] = some l ∧
      l.length = 2 ∧
      List.Forall₂ (fun p fid =>
        dvbCapturesOf p = some (fid.adapter, fid.frontend))
        ([["dvb2.frontend1"], ["dvb3.frontend0"]] : List Path) l := by
  have h := C7_extract_order_and_length.2.2 [["dvb2.frontend1"], ["dvb3.frontend0"]]
    (by
      intro p hp
      rcases List.mem_cons.mp hp with rfl | hp
      · exact ⟨2, 1, rfl, by decide, by decide⟩
      · rcases List.mem_cons.mp hp with rfl | hp
        · exact ⟨3, 0, rfl, by decide, by decide⟩
        · cases hp)
  simpa using h

/-- What a successful `RemoteControl::new` guarantees: the handle
remembers the requested lirc path, its event device is the one the
environment derives for that lirc path, and that device was not already
grabbed. -/
lemma RemoteControl.new_spec (env : Env) (grabbed : List String) (p : Path)
    (h : Handle) (hnew : RemoteControl.new env grabbed p = some h) :
    h.lirc_path = p ∧ devOf env p = some h.device_event_path ∧
      h.device_event_path ∉ grabbed := by
  unfold RemoteControl.new at hnew
  split at hnew
  next => exact absurd hnew (by simp)
  next sys hsys =>
    split at hnew
    next => exact absurd hnew (by simp)
    next fids hfids =>
      split at hnew
      next => exact absurd hnew (by simp)
      next target htarget =>
        split at hnew
        next => exact absurd hnew (by simp)
        next dev hdev =>
          split at hnew
          next hcond =>
            obtain ⟨-, -, hfree⟩ := hcond
            cases hnew
            refine ⟨rfl, ?_, hfree⟩
            unfold devOf
            simp only [hsys, hfids, htarget, hdev]
          next => exact absurd hnew (by simp)

lemma regInv_nil (env : Env) : RegInv env [] :=
  ⟨List.nodup_nil, by simp⟩

lemma addStep_inv (env : Env) (s : List Handle) (p : Path)
    (hinv : RegInv env s) : RegInv env (addStep env s p) := by
  obtain ⟨hnd, hdev⟩ := hinv
  unfold addStep
  split
  · cases hnew : RemoteControl.new env (grabbedOf s) p with
    | none => exact ⟨hnd, hdev⟩
    | some h =>
      obtain ⟨hlirc, hdevp, hfree⟩ := RemoteControl.new_spec env (grabbedOf s) p h hnew
      constructor
      · have : grabbedOf (s ++ [h]) = grabbedOf s ++ [h.device_event_path] := by
          simp [grabbedOf]
        rw [this, List.nodup_append]
        exact ⟨hnd, List.nodup_singleton _, by
          intro d hd hd'
          rw [List.mem_singleton.mp hd'] at hd
          exact hfree hd⟩
      · intro x hx
        rcases List.mem_append.mp hx with hx | hx
        · exact hdev x hx
        · rw [List.mem_singleton.mp hx, hlirc]
          exact hdevp
  · exact ⟨hnd, hdev⟩

lemma removeRemote_inv (env : Env) (s : List Handle) (p : Path)
    (hinv : RegInv env s) : RegInv env (removeRemote s p) := by
  obtain ⟨hnd, hdev⟩ := hinv
  refine ⟨?_, ?_⟩
  · exact List.Nodup.sublist ((List.filter_sublist s).map _) hnd
  · intro x hx
    exact hdev x (List.mem_of_mem_filter hx)

lemma foldl_addStep_inv (env : Env) :
    ∀ (devices : List Path) (s : List Handle), RegInv env s →
      RegInv env (devices.foldl (addStep env) s)
  | [], _, hinv => hinv
  | d :: ds, s, hinv =>
    foldl_addStep_inv env ds (addStep env s d) (addStep_inv env s d hinv)

lemma applyOp_inv (env : Env) (s : List Handle) (op : RegOp)
    (hinv : RegInv env s) : RegInv env (applyOp env s op) := by
  cases op with
  | scan devices => exact foldl_addStep_inv env devices s hinv
  | add p => exact addStep_inv env s p hinv
  | remove p => exact removeRemote_inv env s p hinv

lemma runOps_inv (env : Env) (ops : List RegOp) : RegInv env (runOps env ops) := by
  suffices hgen : ∀ (ops : List RegOp) (s : List Handle), RegInv env s →
      RegInv env (ops.foldl (applyOp env) s) from
    hgen ops [] (regInv_nil env)
  intro ops
  induction ops with
  | nil => exact fun s hinv => hinv
  | cons op rest ih =>
    exact fun s hinv => ih (applyOp env s op) (applyOp_inv env s op hinv)

/-- The invariant forces distinct lirc paths: two handles with the same
lirc path would hold the same grab. -/
lemma regInv_lirc_nodup (env : Env) :
    ∀ s : List Handle, RegInv env s → (s.map (·.lirc_path)).Nodup
  | [], _ => List.nodup_nil
  | h :: t, ⟨hnd, hdev⟩ => by
    rw [List.map_cons, List.nodup_cons]
    constructor
    · intro hmem
      obtain ⟨x, hx, hxe⟩ := List.mem_map.mp hmem
      have e1 : devOf env h.lirc_path = some h.device_event_path :=
        hdev h (List.mem_cons_self h t)
      have e2 : devOf env x.lirc_path = some x.device_event_path :=
        hdev x (List.mem_cons_of_mem h hx)
      rw [hxe, e1] at e2
      have hxd : x.device_event_path = h.device_event_path :=
        (Option.some.inj e2).symm
      have hnotin : h.device_event_path ∉ t.map (·.device_event_path) := by
        have : grabbedOf (h :: t) = h.device_event_path ::
            t.map (·.device_event_path) := rfl
        rw [this] at hnd
        exact (List.nodup_cons.mp hnd).1
      exact hnotin (hxd ▸ List.mem_map_of_mem _ hx)
    · refine regInv_lirc_nodup env t ⟨?_, ?_⟩
      · have : grabbedOf (h :: t) = h.device_event_path :: grabbedOf t := rfl
        rw [this] at hnd
        exact (List.nodup_cons.mp hnd).2
      · exact fun x hx => hdev x (List.mem_cons_of_mem h hx)

/-- C1: over any fixed device environment, after every sequence of
registry operations (initial scan, hotplug add, hotplug remove) starting
from the empty registry, the registry holds at most one handle per
distinct lirc path.  Uniqueness is enforced by the kernel's exclusive
grab: a second construction for the same lirc path targets the same
event device and fails its grab step while the first handle is alive. -/
theorem C1_registry_unique_lirc (env : Env) (ops : List RegOp) :
    ((runOps env ops).map (·.lirc_path)).Nodup :=
  regInv_lirc_nodup env (runOps env ops) (runOps_inv env ops)

/-- C8: a failed construction leaves the registry exactly unchanged, and
during the initial scan a failing lirc device can be dropped from the
scan list without changing the outcome for every other device. -/
theorem C8_add_atomic_scan_independent (env : Env) :
    (∀ (s : List Handle) (p : Path),
      ((get_sys_path_from_lirc_path env.rcGlobResults p).toOption.isSome →
        RemoteControl.new env (grabbedOf s) p = none) →
      addStep env s p = s) ∧
    (∀ (s : List Handle) (xs : List Path) (p : Path) (ys : List Path),
      ((get_sys_path_from_lirc_path env.rcGlobResults p).toOption.isSome →
        RemoteControl.new env (grabbedOf (xs.foldl (addStep env) s)) p = none) →
      (xs ++ p :: ys).foldl (addStep env) s = (xs ++ ys).foldl (addStep env) s) := by
  have hstep : ∀ (s : List Handle) (p : Path),
      ((get_sys_path_from_lirc_path env.rcGlobResults p).toOption.isSome →
        RemoteControl.new env (grabbedOf s) p = none) →
      addStep env s p = s := by
    intro s p hfail
    unfold addStep
    split
    next hres => rw [hfail hres]
    next => rfl
  refine ⟨hstep, ?_⟩
  intro s xs p ys hfail
  rw [List.foldl_append, List.foldl_append, List.foldl_cons, hstep _ p hfail]

/-- Witness for C8 over a concrete environment in which resolution
fails for every path. -/
theorem C8_add_atomic_scan_independent_witness :
    addStep ⟨[], fun _ => [], fun _ => none, fun _ => false, fun _ => false,
      fun _ => false⟩ [] ["dev", "lirc0"] = [] ∧
    ([["dev", "lirc0"]] ++ ["dev", "lirc1"] :: []).foldl
      (addStep ⟨[], fun _ => [], fun _ => none, fun _ => false, fun _ => false,
        fun _ => false⟩) [] =
    ([["dev", "lirc0"]] ++ ([] : List Path)).foldl
      (addStep ⟨[], fun _ => [], fun _ => none, fun _ => false, fun _ => false,
        fun _ => false⟩) [] :=
  ⟨(C8_add_atomic_scan_independent _).1 [] ["dev", "lirc0"] (by intro h; cases h),
   (C8_add_atomic_scan_independent _).2 [] [["dev", "lirc0"]] ["dev", "lirc1"] []
     (by intro h; cases h)⟩

end MeTV
